import Mathlib

/-!
Shallow embedding of the serial-protocol engine of the `ui_app`
repository (`src/main.py` and `src/firmware_update.py`), together with
theorems settling the specification claims about it.

Machine integers are modelled as `Nat` (all Python integers involved are
non-negative and the CRC arithmetic never exceeds 16 bits); byte strings
are modelled as `List Nat` with elements below 256; signed arithmetic in
the calibration code uses `Int` and `ℚ`.
-/

namespace UiApp

/-! ## ChecksumEngine: AutoConnectWorker._calc_crc / _check_crc (src/main.py 131-147) -/

/-- One iteration of the inner `for _ in range(8)` loop of
`AutoConnectWorker._calc_crc`: if `crc & 1` is set, shift right by one and
XOR in 0xA001, otherwise just shift right. -/
def crcRound (crc : Nat) : Nat :=
  if crc &&& 1 = 1 then (crc >>> 1) ^^^ 0xA001 else crc >>> 1

/-- Translation of `AutoConnectWorker._calc_crc`: start from 0xFFFF, XOR each byte in,
then run eight `crcRound` iterations. -/
def calc_crc (data : List Nat) : Nat :=
  data.foldl (fun crc ch => crcRound^[8] (crc ^^^ ch)) 0xFFFF

/-- Python slicing `packet[-2:]` on a list of bytes (the whole list when it
is shorter than two bytes). -/
def lastTwo (l : List Nat) : List Nat := l.drop (l.length - 2)

/-- Python slicing `packet[:-2]` on a list of bytes. -/
def dropLastTwo (l : List Nat) : List Nat := l.take (l.length - 2)

/-- Python `int.from_bytes(bs, byteorder="little")`. -/
def fromLE (l : List Nat) : Nat := l.foldr (fun b acc => b + 256 * acc) 0

/-- Python `int.from_bytes(bs, byteorder="big")`. -/
def fromBE (l : List Nat) : Nat := l.foldl (fun acc b => 256 * acc + b) 0

/-- Translation of `AutoConnectWorker._check_crc`: the trailing two bytes, read
little-endian, must equal the checksum of everything before them. -/
def check_crc (packet : List Nat) : Bool :=
  fromLE (lastTwo packet) == calc_crc (dropLastTwo packet)

/-- Specification-side restatement of one checksum shift, following the
words of spec §4.1: a right shift that XORs in polynomial 0xA001 when the
shifted-out bit was 1.  Phrased with `% 2` / `/ 2` instead of the source's
bit operations so the equivalence proof is not vacuous. -/
def specCrcShift (c : Nat) : Nat :=
  if c % 2 = 1 then (c / 2) ^^^ 0xA001 else c / 2

/-- Specification-side restatement of the whole checksum of spec §4.1. -/
def specCrc (data : List Nat) : Nat :=
  data.foldl (fun crc ch => specCrcShift^[8] (crc ^^^ ch)) 0xFFFF

theorem crcRound_eq_specCrcShift : crcRound = specCrcShift := by
  funext c
  simp [crcRound, specCrcShift, Nat.and_one_is_mod, Nat.shiftRight_one]

theorem crcRound_lt (c : Nat) (h : c < 65536) : crcRound c < 65536 := by
  unfold crcRound
  have hs : c >>> 1 < 65536 := by
    rw [Nat.shiftRight_one]
    omega
  split
  · have : (65536 : Nat) = 2 ^ 16 := by norm_num
    rw [this] at hs ⊢
    exact Nat.xor_lt_two_pow hs (by norm_num)
  · exact hs

theorem crcRound_iter_lt (n : Nat) (c : Nat) (h : c < 65536) :
    crcRound^[n] c < 65536 := by
  induction n generalizing c with
  | zero => simpa using h
  | succ n ih =>
      rw [Function.iterate_succ_apply]
      exact ih _ (crcRound_lt c h)

theorem calc_crc_lt (data : List Nat) (h : ∀ x ∈ data, x < 256) :
    calc_crc data < 65536 := by
  unfold calc_crc
  have main : ∀ (l : List Nat), (∀ x ∈ l, x < 256) → ∀ crc : Nat, crc < 65536 →
      l.foldl (fun crc ch => crcRound^[8] (crc ^^^ ch)) crc < 65536 := by
    intro l
    induction l with
    | nil => intro _ crc hc; simpa using hc
    | cons a t ih =>
        intro hl crc hc
        have ha : a < 256 := hl a (List.mem_cons_self a t)
        have hx : crc ^^^ a < 65536 := by
          have h1 : (65536 : Nat) = 2 ^ 16 := by norm_num
          rw [h1] at hc ⊢
          exact Nat.xor_lt_two_pow hc (by omega)
        simpa using ih (fun x hx => hl x (List.mem_cons_of_mem a hx)) _
          (crcRound_iter_lt 8 _ hx)
  exact main data h 0xFFFF (by norm_num)

/-- C4: the checksum function is exactly the algorithm stated in the spec
(initial value 0xFFFF, XOR each byte into the low bits, eight right shifts
each XOR-ing in 0xA001 when the shifted-out bit was 1), it produces a
16-bit value on byte input, and a packet passes `_check_crc` exactly when
the checksum of all bytes except the trailing two equals the trailing two
bytes interpreted little-endian. -/
theorem checksum_matches_spec :
    (∀ data : List Nat, calc_crc data = specCrc data)
    ∧ (∀ data : List Nat, (∀ x ∈ data, x < 256) → calc_crc data < 65536)
    ∧ (∀ packet : List Nat,
        check_crc packet = true
          ↔ calc_crc (dropLastTwo packet) = fromLE (lastTwo packet)) := by
  refine ⟨?_, calc_crc_lt, ?_⟩
  · intro data
    simp [calc_crc, specCrc, crcRound_eq_specCrcShift]
  · intro packet
    unfold check_crc
    simp only [beq_iff_eq]
    exact eq_comm

/-- Witness instantiating `checksum_matches_spec` on a concrete packet. -/
theorem checksum_matches_spec_witness :
    calc_crc [1, 3, 12] < 65536
    ∧ (check_crc [1, 3, 12, 0x4D, 0xF2] = true
        ↔ calc_crc (dropLastTwo [1, 3, 12, 0x4D, 0xF2])
            = fromLE (lastTwo [1, 3, 12, 0x4D, 0xF2])) :=
  ⟨checksum_matches_spec.2.1 [1, 3, 12] (by decide),
   checksum_matches_spec.2.2 [1, 3, 12, 0x4D, 0xF2]⟩

/-! ## Port swap: UMVH._map_port_ui_to_device / _map_port_device_to_ui
(src/main.py 612-622), with UMVH.SWAP_1_2_ENABLED = True (line 428) -/

def SWAP_1_2_ENABLED : Bool := true

/-- Translation of `UMVH._map_port_ui_to_device`. -/
def map_port_ui_to_device (port : Int) : Int :=
  if SWAP_1_2_ENABLED = false then port
  else if port = 1 then 2 else if port = 2 then 1 else port

/-- Translation of `UMVH._map_port_device_to_ui`. -/
def map_port_device_to_ui (port : Int) : Int :=
  if SWAP_1_2_ENABLED = false then port
  else if port = 1 then 2 else if port = 2 then 1 else port

/-- C8: the port-swap map is an involution with swap(1)=2, swap(2)=1,
identity elsewhere, and the UI-to-device and device-to-UI directions are
the same bijection. -/
theorem port_swap_bijection :
    (∀ p : Int, map_port_ui_to_device (map_port_ui_to_device p) = p)
    ∧ map_port_ui_to_device 1 = 2
    ∧ map_port_ui_to_device 2 = 1
    ∧ (∀ p : Int, p ≠ 1 → p ≠ 2 → map_port_ui_to_device p = p)
    ∧ (∀ p : Int, map_port_ui_to_device p = map_port_device_to_ui p) := by
  refine ⟨?_, by decide, by decide, ?_, ?_⟩
  · intro p
    simp only [map_port_ui_to_device, SWAP_1_2_ENABLED]
    split
    · rename_i h; exact absurd h (by decide)
    · split
      · rename_i h; simp [h]
      · split
        · rename_i h; simp [h]
        · rename_i h1 h2
          simp [h1, h2]
  · intro p h1 h2
    simp [map_port_ui_to_device, SWAP_1_2_ENABLED, h1, h2]
  · intro p
    rfl

/-- Witness instantiating `port_swap_bijection` at port 5. -/
theorem port_swap_bijection_witness :
    map_port_ui_to_device (map_port_ui_to_device 5) = 5
    ∧ map_port_ui_to_device 5 = 5 :=
  ⟨port_swap_bijection.1 5,
   port_swap_bijection.2.2.2.1 5 (by decide) (by decide)⟩

/-! ## Negative-slope check: UMVH._has_negative_slope (src/main.py 867-875) -/

/-- Translation of `UMVH._has_negative_slope`: returns False when any input is None or
when `x2 - x1` is zero; otherwise tests whether
`(x2 - x1) * (y2 - y1) < 0`. -/
def has_negative_slope (x1 y1 x2 y2 : Option Int) : Bool :=
  match x1, y1, x2, y2 with
  | some x1, some y1, some x2, some y2 =>
      let dx := x2 - x1
      if dx = 0 then false
      else
        let dy := y2 - y1
        decide (dx * dy < 0)
  | _, _, _, _ => false

/-- C3 counterexample: the claim states the check rejects exactly when
`x1 > x2 or y1 > y2`; at `(x1,y1,x2,y2) = (200,150,100,50)` that rule
demands rejection (200 > 100) but the code accepts, because it actually
tests the product sign `(x2-x1)*(y2-y1) < 0`. -/
theorem negative_slope_not_inequality_rule :
    ¬ (has_negative_slope (some 200) (some 150) (some 100) (some 50) = true
        ↔ ((200 : Int) > 100 ∨ (150 : Int) > 50)) := by
  decide

/-- C3 amended: the check rejects exactly when `(x2-x1)*(y2-y1) < 0`
(all four values present); in particular it does not reject
`(100, 50, 200, 150)` and it rejects `(100, 150, 200, 50)`. -/
theorem negative_slope_product_rule :
    (∀ a b c d : Int,
        has_negative_slope (some a) (some b) (some c) (some d) = true
          ↔ (c - a) * (d - b) < 0)
    ∧ has_negative_slope (some 100) (some 50) (some 200) (some 150) = false
    ∧ has_negative_slope (some 100) (some 150) (some 200) (some 50) = true := by
  refine ⟨?_, by decide, by decide⟩
  intro a b c d
  simp only [has_negative_slope]
  split
  · rename_i h
    constructor
    · intro hfalse; exact absurd hfalse (by simp)
    · intro hlt
      rw [h] at hlt
      simp at hlt
  · simp

/-- Witness instantiating `negative_slope_product_rule` at (0, 0, 1, 1). -/
theorem negative_slope_product_rule_witness :
    has_negative_slope (some 0) (some 0) (some 1) (some 1) = true
      ↔ ((1 : Int) - 0) * ((1 : Int) - 0) < 0 :=
  negative_slope_product_rule.1 0 0 1 1

/-! ## Live-value interpolation: UMVH._update_live_sensor_widgets
(src/main.py 877-905).  Python evaluates the interpolation in floating
point; the embedding uses exact rational arithmetic, which agrees with the
float result on all values the proofs below evaluate. -/

/-- Python `round()`: nearest integer, ties to the even integer. -/
def pyRound (q : ℚ) : ℤ :=
  let fl := ⌊q⌋
  let fr := q - fl
  if fr < 1 / 2 then fl
  else if 1 / 2 < fr then fl + 1
  else if fl % 2 = 0 then fl else fl + 1

/-- Committed-points branch of `UMVH._update_live_sensor_widgets`
(src/main.py 890-897): `result = y1` when `x1 == x2`, otherwise
`y1 + (v - x1) * (y2 - y1) / (x2 - x1)`; then
`max(0, min(int(round(result)), 0xFFFF))`. -/
def live_result (x1 y1 x2 y2 v : ℤ) : ℤ :=
  let result : ℚ :=
    if x1 = x2 then (y1 : ℚ)
    else (y1 : ℚ) + ((v : ℚ) - (x1 : ℚ)) * ((y2 : ℚ) - (y1 : ℚ)) / ((x2 : ℚ) - (x1 : ℚ))
  max 0 (min (pyRound result) 65535)

theorem pyRound_intCast (n : ℤ) : pyRound (n : ℚ) = n := by
  simp [pyRound, Int.floor_intCast]

theorem pyRound_of_lt_half (q : ℚ) (f : ℤ) (hf : ⌊q⌋ = f) (h : q - f < 1 / 2) :
    pyRound q = f := by
  simp only [pyRound, hf]
  rw [if_pos h]

/-- C9 counterexample: the claim says the displayed value equals
`y1 + (v-x1)*(y2-y1)/(x2-x1)` clamped to [0, 65535]; at
`(x1,y1,x2,y2) = (0,0,3,1)` with live reading `v = 1` the formula gives
1/3 but the code displays the rounded value 0. -/
theorem live_value_not_exact_formula :
    ¬ (((live_result 0 0 3 1 1 : ℤ) : ℚ)
        = max 0 (min ((0 : ℚ)
            + ((1 : ℚ) - 0) * ((1 : ℚ) - 0) / ((3 : ℚ) - 0)) 65535)) := by
  have hq : ((0 : ℤ) : ℚ) + (((1 : ℤ) : ℚ) - ((0 : ℤ) : ℚ))
      * (((1 : ℤ) : ℚ) - ((0 : ℤ) : ℚ)) / (((3 : ℤ) : ℚ) - ((0 : ℤ) : ℚ))
      = 1 / 3 := by
    push_cast
    norm_num
  have hfl : ⌊(1 / 3 : ℚ)⌋ = 0 := by
    rw [Int.floor_eq_iff]
    constructor
    · norm_num
    · norm_num
  have h : live_result 0 0 3 1 1 = 0 := by
    simp only [live_result, if_neg (by decide : ¬ (0 : ℤ) = 3), hq]
    rw [pyRound_of_lt_half (1 / 3) 0 hfl (by norm_num)]
    decide
  rw [h]
  norm_num

/-- C9 amended: the displayed live value is the interpolation formula
`y1 + (v-x1)*(y2-y1)/(x2-x1)` rounded to the nearest integer (ties to
even) and clamped to [0, 65535] when `x1 ≠ x2`; it equals `y1` when
`x1 = x2` (for u16 `y1`); and whenever the division is exact the rounding
is the identity, so the displayed value is exactly the clamped formula. -/
theorem live_value_interpolation :
    (∀ x1 y1 x2 y2 v : ℤ, x1 ≠ x2 →
        live_result x1 y1 x2 y2 v
          = max 0 (min (pyRound ((y1 : ℚ)
              + ((v : ℚ) - (x1 : ℚ)) * ((y2 : ℚ) - (y1 : ℚ))
                / ((x2 : ℚ) - (x1 : ℚ)))) 65535))
    ∧ (∀ x1 y1 x2 y2 v : ℤ, x1 = x2 → 0 ≤ y1 → y1 ≤ 65535 →
        live_result x1 y1 x2 y2 v = y1)
    ∧ (∀ x1 y1 x2 y2 v q : ℤ, x1 ≠ x2 →
        (v - x1) * (y2 - y1) = q * (x2 - x1) →
        live_result x1 y1 x2 y2 v = max 0 (min (y1 + q) 65535)) := by
  refine ⟨?_, ?_, ?_⟩
  · intro x1 y1 x2 y2 v hne
    simp [live_result, hne]
  · intro x1 y1 x2 y2 v heq h0 h65
    subst heq
    simp [live_result, pyRound_intCast]
    omega
  · intro x1 y1 x2 y2 v q hne hq
    have hx : ((x2 : ℚ) - (x1 : ℚ)) ≠ 0 := by
      intro h0
      apply hne
      have : (x1 : ℚ) = (x2 : ℚ) := by linarith
      exact_mod_cast this
    have hform : (y1 : ℚ) + ((v : ℚ) - (x1 : ℚ)) * ((y2 : ℚ) - (y1 : ℚ))
        / ((x2 : ℚ) - (x1 : ℚ)) = ((y1 + q : ℤ) : ℚ) := by
      have hqQ : ((v : ℚ) - (x1 : ℚ)) * ((y2 : ℚ) - (y1 : ℚ))
          = (q : ℚ) * ((x2 : ℚ) - (x1 : ℚ)) := by exact_mod_cast hq
      field_simp
      linear_combination hqQ
    simp only [live_result, if_neg hne, hform, pyRound_intCast]

/-- Witness instantiating `live_value_interpolation` on the exact-division
case (0, 0, 2, 10) with live reading 1. -/
theorem live_value_interpolation_witness :
    live_result 0 0 2 10 1 = max 0 (min ((0 : ℤ) + 5) 65535) :=
  live_value_interpolation.2.2 0 0 2 10 1 5 (by decide) (by decide)

/-! ## Single-register write: UMVH._write_register (src/main.py 1631-1645) -/

/-- Python `struct.pack(">H", n)` for an in-range u16 (the source raises on
out-of-range values; the `%` keeps the model total). -/
def toBE2 (n : Nat) : List Nat := [n / 256 % 256, n % 256]

/-- Python `n.to_bytes(2, "little")` for an in-range u16. -/
def toLE2 (n : Nat) : List Nat := [n % 256, n / 256 % 256]

/-- The function-6 frame `UMVH._write_register` writes:
`struct.pack(">BBHH", slave, 6, addr, value)` followed by the
little-endian checksum. -/
def write_register_request (slave addr value : Nat) : List Nat :=
  let req := [slave % 256, 6] ++ toBE2 addr ++ toBE2 value
  req ++ toLE2 (calc_crc req)

/-- Translation of `UMVH._write_register`, with the bytes returned by
`self.serial_port.read(8)` supplied as an oracle (`none` models a
`SerialException`): fail unless exactly 8 bytes arrived, then compare the
trailing little-endian checksum with the checksum of the first six bytes.
The response content is never compared with the request. -/
def write_register (slave addr value : Nat) (resp : Option (List Nat)) : Bool :=
  match resp with
  | none => false
  | some r => if r.length = 8 then check_crc r else false

set_option maxRecDepth 10000 in
/-- C7 counterexample: the claim says Success is returned only when the
response mirrors the request; but the checksum-valid echo of a *different*
write (value 6 instead of 5) is accepted by `_write_register` for the
value-5 request. -/
theorem write_register_accepts_non_echo :
    write_register 1 27 5 (some (write_register_request 1 27 6)) = true
    ∧ write_register_request 1 27 6 ≠ write_register_request 1 27 5 := by
  decide

/-- C7 amended: `_write_register` reads 8 response bytes and returns
Success exactly when the read produced 8 bytes whose checksum validates;
a short read, checksum mismatch or I/O failure returns Fail, and the echo
content is not compared against the request. -/
theorem write_register_checks_length_and_crc :
    (∀ slave addr value : Nat, write_register slave addr value none = false)
    ∧ (∀ (slave addr value : Nat) (r : List Nat),
        write_register slave addr value (some r) = true
          ↔ (r.length = 8 ∧ check_crc r = true)) := by
  constructor
  · intro slave addr value
    rfl
  · intro slave addr value r
    simp only [write_register]
    split
    · rename_i h
      simp [h]
    · rename_i h
      simp [h]

/-- Witness instantiating `write_register_checks_length_and_crc` on the
exact echo of the request (1, 27, 5). -/
theorem write_register_checks_length_and_crc_witness :
    write_register 1 27 5 (some (write_register_request 1 27 5)) = true
      ↔ ((write_register_request 1 27 5).length = 8
          ∧ check_crc (write_register_request 1 27 5) = true) :=
  write_register_checks_length_and_crc.2 1 27 5 (write_register_request 1 27 5)

/-! ## Link discovery: AutoConnectWorker.run / _parse_regs
(src/main.py 90-160).

The worker loops: each iteration writes the one-byte beacon, reads up to
17 bytes (`ser.read(AUTO_CONNECT_RESPONSE_LEN)` with a 200 ms timeout),
and emits the parsed settings when the 17 bytes read pass the checksum;
otherwise the bytes read are discarded and the loop repeats.  The model
takes the full stream of bytes the device will ever send: each iteration
consumes the leading `min 17 |stream|` bytes, and once the stream is
exhausted every later read returns nothing, so the loop can never emit —
the model then returns `none` (the worker spins until externally
stopped, emitting no settings). -/

/-- Parsed link settings of `AutoConnectWorker._parse_regs`. -/
structure AcSettings where
  baud : Nat
  bits : Nat
  parity : Nat
  stop : Nat
  usart_id : Nat
deriving DecidableEq, Repr

/-- Translation of `AutoConnectWorker._parse_regs`: six big-endian 16-bit fields after a
3-byte header; baud is the first field times 100, the slave id the
sixth. -/
def parse_regs (packet : List Nat) : AcSettings :=
  let reg := fun i => fromBE ((packet.drop (3 + 2 * i)).take 2)
  { baud := reg 0 * 100
    bits := reg 1
    parity := reg 2
    stop := reg 3
    usart_id := reg 5 }

/-- One read-and-test iteration chain of `AutoConnectWorker.run`, with
enough fuel to exhaust the stream.  `fuel` only bounds recursion; any
`fuel ≥ ⌈|stream| / 17⌉ + 1` gives the loop's full behaviour. -/
def auto_connect_go : Nat → List Nat → Option AcSettings
  | 0, _ => none
  | fuel + 1, stream =>
      let data := stream.take 17
      if 17 ≤ data.length ∧ check_crc data = true then some (parse_regs data)
      else auto_connect_go fuel (stream.drop 17)

/-- Translation of `AutoConnectWorker.run` on a device byte stream: the settings emitted
through `finished`, or `none` when the loop never sees a valid aligned
window (it then runs until stopped without emitting settings).
`|stream| + 1` rounds of `auto_connect_go` always exhaust the stream. -/
def auto_connect_run (stream : List Nat) : Option AcSettings :=
  auto_connect_go (stream.length + 1) stream

theorem auto_connect_go_succ (fuel : Nat) (stream : List Nat) :
    auto_connect_go (fuel + 1) stream =
      if 17 ≤ (stream.take 17).length ∧ check_crc (stream.take 17) = true
      then some (parse_regs (stream.take 17))
      else auto_connect_go fuel (stream.drop 17) := rfl

theorem auto_connect_go_nil (fuel : Nat) : auto_connect_go fuel [] = none := by
  induction fuel with
  | zero => rfl
  | succ n ih =>
      rw [auto_connect_go_succ, if_neg (by simp)]
      simpa using ih

/-- A concrete checksum-valid 17-byte announcement frame: header
`01 03 0C`, fields 1152 (baud/100), 8, 0, 1, 0, 1, checksum appended
little-endian. -/
def acFrame : List Nat :=
  let body := [1, 3, 12, 4, 128, 0, 8, 0, 0, 0, 1, 0, 0, 0, 1]
  body ++ toLE2 (calc_crc body)

set_option maxRecDepth 20000 in
/-- C2 counterexample: the claim says one garbage byte followed by a
checksum-valid 17-byte frame still yields the parsed settings by
discarding one leading byte; but `AutoConnectWorker.run` keeps no
accumulation buffer and discards the whole misaligned 17-byte read, so
the stream `0x00 :: acFrame` never produces any settings. -/
theorem discovery_no_resync_counterexample :
    check_crc acFrame = true
    ∧ acFrame.length = 17
    ∧ auto_connect_run (0 :: acFrame) = none := by
  decide

/-- C2 amended: the discovery reader tests only the leading 17-byte
window of each read, without sliding-window resynchronization: a valid
frame alone is parsed and emitted, but prepending one garbage byte makes
every window invalid (the misaligned first window fails the checksum, the
17-byte read consumes it whole, and the single remaining byte can never
fill a window), so no settings are ever emitted. -/
theorem discovery_fixed_window :
    (∀ frame : List Nat, frame.length = 17 → check_crc frame = true →
        auto_connect_run frame = some (parse_regs frame))
    ∧ (∀ (g : Nat) (frame : List Nat), frame.length = 17 →
        check_crc ((g :: frame).take 17) = false →
        auto_connect_run (g :: frame) = none) := by
  constructor
  · intro frame hlen hcrc
    have htake : frame.take 17 = frame := List.take_of_length_le (by omega)
    unfold auto_connect_run
    rw [hlen, auto_connect_go_succ, htake, if_pos ⟨by omega, hcrc⟩]
  · intro g frame hlen hbad
    have hlen1 : (g :: frame).length = 18 := by simp [hlen]
    have hdrop : ((g :: frame).drop 17).length = 1 := by
      rw [List.length_drop, hlen1]
    have hc1 : ¬ (17 ≤ ((g :: frame).take 17).length
        ∧ check_crc ((g :: frame).take 17) = true) := by
      intro hco
      have h2 := hco.2
      rw [hbad] at h2
      exact absurd h2 (by decide)
    have hc2 : ¬ (17 ≤ (((g :: frame).drop 17).take 17).length
        ∧ check_crc (((g :: frame).drop 17).take 17) = true) := by
      intro hco
      have h1 := hco.1
      rw [List.length_take] at h1
      omega
    unfold auto_connect_run
    rw [hlen1, show (18 : Nat) + 1 = 17 + 1 + 1 from rfl, auto_connect_go_succ,
      if_neg hc1, auto_connect_go_succ, if_neg hc2,
      List.drop_eq_nil_of_le (by omega), auto_connect_go_nil]

set_option maxRecDepth 20000 in
/-- Witness instantiating `discovery_fixed_window` on the concrete valid
frame `acFrame`. -/
theorem discovery_fixed_window_witness :
    auto_connect_run acFrame = some (parse_regs acFrame) :=
  discovery_fixed_window.1 acFrame (by decide) (by decide)

/-! ## Register poller: RegisterPoller.run / _read_registers
(src/main.py 163-224) -/

/-- Result of one serial exchange as seen by
`RegisterPoller._read_registers`: either the bytes
`self.serial_port.read(...)` returned, or a `serial.SerialException`
raised by the write or the read. -/
inductive ReadRes
  | bytes (data : List Nat)
  | exc
deriving DecidableEq, Repr

/-- Externally observable actions of the poller: a serial read attempt, a
`data_ready` emission, an `error` emission, a `connection_lost` emission,
or a `time.sleep`. -/
inductive PollEv
  | readAttempt (startAddr count : Nat)
  | dataReady (types values status : List Nat)
  | errorSig
  | connectionLost
  | sleep (secs : Nat)
deriving DecidableEq, Repr

/-- Mutable state of `RegisterPoller`: `_running` and `_fail_count`. -/
structure PollSt where
  running : Bool
  fail_count : Nat
deriving DecidableEq, Repr

def REG_SENSOR_TYPE_BASE : Nat := 0x000A
def REG_SENSOR_TYPE_COUNT : Nat := 8
def REG_SENSOR_POLL_COUNT : Nat := 16
def REG_CAL_STATUS_START : Nat := 0x001F
def REG_CAL_STATUS_COUNT : Nat := 8

/-- Translation of `RegisterPoller._read_registers` with the serial exchange supplied by
the oracle `res`: on exception emit `error` and stop; on a short read or
checksum mismatch increment `_fail_count`, emit `connection_lost` and stop
once it reaches 5, sleep the 1 s backoff, and return `none`; on success
return the `count` big-endian register values. -/
def read_registers (st : PollSt) (res : ReadRes) (start count : Nat) :
    Option (List Nat) × PollSt × List PollEv :=
  match res with
  | .exc => (none, { st with running := false },
      [.readAttempt start count, .errorSig])
  | .bytes resp =>
      if resp.length < 5 + count * 2 ∨ check_crc resp = false then
        let fc := st.fail_count + 1
        if 5 ≤ fc then
          (none, { running := false, fail_count := fc },
            [.readAttempt start count, .connectionLost, .sleep 1])
        else
          (none, { st with fail_count := fc },
            [.readAttempt start count, .sleep 1])
      else
        (some ((List.range count).map fun i => fromBE ((resp.drop (3 + 2 * i)).take 2)),
          st, [.readAttempt start count])

/-- One iteration of the `while self._running` body of
`RegisterPoller.run`: the sensor block read, then (on success) the
calibration-status block read, then reset `_fail_count`, emit
`data_ready` and sleep the 1 s cadence; a failed read makes the iteration
`continue` (skipping the cadence sleep).  Returns the new state, the
emitted events, and how many serial exchanges were consumed. -/
def poller_cycle (st : PollSt) (r1 r2 : ReadRes) : PollSt × List PollEv × Nat :=
  match read_registers st r1 REG_SENSOR_TYPE_BASE REG_SENSOR_POLL_COUNT with
  | (none, st1, evs1) => (st1, evs1, 1)
  | (some sensor_regs, st1, evs1) =>
      match read_registers st1 r2 REG_CAL_STATUS_START REG_CAL_STATUS_COUNT with
      | (none, st2, evs2) => (st2, evs1 ++ evs2, 2)
      | (some status_regs, st2, evs2) =>
          ({ st2 with fail_count := 0 },
            evs1 ++ evs2
              ++ [.dataReady (sensor_regs.take REG_SENSOR_TYPE_COUNT)
                    (sensor_regs.drop REG_SENSOR_TYPE_COUNT) status_regs,
                  .sleep 1],
            2)

/-- Translation of `RegisterPoller.run`: iterate cycles while `_running` holds, with the
k-th serial exchange of the run supplied by `reads`; `fuel` bounds how
many loop iterations are observed. -/
def poller_run (reads : Nat → ReadRes) : Nat → PollSt → Nat → List PollEv
  | 0, _, _ => []
  | fuel + 1, st, k =>
      if st.running then
        let c := poller_cycle st (reads k) (reads (k + 1))
        c.2.1 ++ poller_run reads fuel c.1 (k + c.2.2)
      else []

/-- The events strictly after the first `connection_lost` emission. -/
def after_first_cl : List PollEv → List PollEv
  | [] => []
  | e :: rest => if e = .connectionLost then rest else after_first_cl rest

theorem after_first_cl_cons_ne (e : PollEv) (l : List PollEv)
    (h : e ≠ .connectionLost) : after_first_cl (e :: l) = after_first_cl l := by
  simp [after_first_cl, h]

theorem after_first_cl_append (l1 l2 : List PollEv)
    (h : PollEv.connectionLost ∉ l1) :
    after_first_cl (l1 ++ l2) = after_first_cl l2 := by
  induction l1 with
  | nil => rfl
  | cons e t ih =>
      rw [List.cons_append,
        after_first_cl_cons_ne e _ (fun he => h (he ▸ List.mem_cons_self e t)),
        ih (fun ht => h (List.mem_cons_of_mem e ht))]

theorem read_registers_fail_low (st : PollSt) (resp : List Nat) (s c : Nat)
    (h : resp.length < 5 + c * 2 ∨ check_crc resp = false)
    (h5 : st.fail_count + 1 < 5) :
    read_registers st (.bytes resp) s c
      = (none, { st with fail_count := st.fail_count + 1 },
          [.readAttempt s c, .sleep 1]) := by
  simp only [read_registers]
  rw [if_pos h, if_neg (by omega)]

theorem read_registers_fail_cl (st : PollSt) (resp : List Nat) (s c : Nat)
    (h : resp.length < 5 + c * 2 ∨ check_crc resp = false)
    (h5 : 5 ≤ st.fail_count + 1) :
    read_registers st (.bytes resp) s c
      = (none, { running := false, fail_count := st.fail_count + 1 },
          [.readAttempt s c, .connectionLost, .sleep 1]) := by
  simp only [read_registers]
  rw [if_pos h, if_pos h5]

theorem read_registers_ok (st : PollSt) (resp : List Nat) (s c : Nat)
    (h : ¬ (resp.length < 5 + c * 2 ∨ check_crc resp = false)) :
    read_registers st (.bytes resp) s c
      = (some ((List.range c).map fun i => fromBE ((resp.drop (3 + 2 * i)).take 2)),
          st, [.readAttempt s c]) := by
  simp only [read_registers]
  rw [if_neg h]

/-- Every cycle either emits no `connection_lost`, or everything after its
(only) `connection_lost` is the backoff sleep and the poller has stopped. -/
theorem poller_cycle_cl_cases (st : PollSt) (r1 r2 : ReadRes) :
    PollEv.connectionLost ∉ (poller_cycle st r1 r2).2.1
    ∨ (after_first_cl (poller_cycle st r1 r2).2.1 = [.sleep 1]
        ∧ (poller_cycle st r1 r2).1.running = false) := by
  cases r1 with
  | exc =>
      left
      simp [poller_cycle, read_registers]
  | bytes resp1 =>
      by_cases h1 : resp1.length < 5 + REG_SENSOR_POLL_COUNT * 2
          ∨ check_crc resp1 = false
      · by_cases h5 : 5 ≤ st.fail_count + 1
        · right
          unfold poller_cycle
          rw [read_registers_fail_cl st resp1 _ _ h1 h5]
          exact ⟨rfl, rfl⟩
        · left
          unfold poller_cycle
          rw [read_registers_fail_low st resp1 _ _ h1 (by omega)]
          simp
      · cases r2 with
        | exc =>
            left
            simp only [poller_cycle, read_registers_ok st resp1 _ _ h1]
            simp [read_registers]
        | bytes resp2 =>
            by_cases h2 : resp2.length < 5 + REG_CAL_STATUS_COUNT * 2
                ∨ check_crc resp2 = false
            · by_cases h5 : 5 ≤ st.fail_count + 1
              · right
                simp only [poller_cycle, read_registers_ok st resp1 _ _ h1,
                  read_registers_fail_cl st resp2 _ _ h2 h5]
                exact ⟨rfl, by trivial⟩
              · left
                simp only [poller_cycle, read_registers_ok st resp1 _ _ h1,
                  read_registers_fail_low st resp2 _ _ h2 (by omega)]
                simp
            · left
              simp only [poller_cycle, read_registers_ok st resp1 _ _ h1,
                read_registers_ok st resp2 _ _ h2]
              simp

theorem poller_run_succ (reads : Nat → ReadRes) (fuel : Nat) (st : PollSt)
    (k : Nat) :
    poller_run reads (fuel + 1) st k
      = if st.running then
          (poller_cycle st (reads k) (reads (k + 1))).2.1
            ++ poller_run reads fuel (poller_cycle st (reads k) (reads (k + 1))).1
                (k + (poller_cycle st (reads k) (reads (k + 1))).2.2)
        else [] := rfl

theorem poller_run_not_running (reads : Nat → ReadRes) (fuel : Nat)
    (st : PollSt) (k : Nat) (h : st.running = false) :
    poller_run reads fuel st k = [] := by
  cases fuel with
  | zero => rfl
  | succ n => rw [poller_run_succ, if_neg (by rw [h]; exact Bool.false_ne_true)]

/-- C6: in the register poller, (i) a failed block read (short read or
checksum mismatch) increments the consecutive-failure counter, sleeps the
fixed 1 s backoff, and emits `connection_lost` exactly when the counter
reaches 5 (also stopping the loop); (ii) a fully successful poll cycle
resets the counter to zero before emitting the fresh register values; and
(iii) in every run, everything after a `connection_lost` emission is the
backoff sleep of the read that emitted it — in particular there is at most
one `connection_lost` and no further read attempts. -/
theorem poller_failure_policy :
    (∀ (st : PollSt) (resp : List Nat) (s c : Nat),
        resp.length < 5 + c * 2 ∨ check_crc resp = false →
        read_registers st (.bytes resp) s c
          = (none,
             { running := if 5 ≤ st.fail_count + 1 then false else st.running,
               fail_count := st.fail_count + 1 },
             if 5 ≤ st.fail_count + 1 then
               [.readAttempt s c, .connectionLost, .sleep 1]
             else [.readAttempt s c, .sleep 1]))
    ∧ (∀ (st : PollSt) (resp1 resp2 : List Nat),
        ¬ (resp1.length < 5 + REG_SENSOR_POLL_COUNT * 2 ∨ check_crc resp1 = false) →
        ¬ (resp2.length < 5 + REG_CAL_STATUS_COUNT * 2 ∨ check_crc resp2 = false) →
        poller_cycle st (.bytes resp1) (.bytes resp2)
          = ({ running := st.running, fail_count := 0 },
             [.readAttempt REG_SENSOR_TYPE_BASE REG_SENSOR_POLL_COUNT,
              .readAttempt REG_CAL_STATUS_START REG_CAL_STATUS_COUNT,
              .dataReady
                (((List.range REG_SENSOR_POLL_COUNT).map
                    fun i => fromBE ((resp1.drop (3 + 2 * i)).take 2)).take
                  REG_SENSOR_TYPE_COUNT)
                (((List.range REG_SENSOR_POLL_COUNT).map
                    fun i => fromBE ((resp1.drop (3 + 2 * i)).take 2)).drop
                  REG_SENSOR_TYPE_COUNT)
                ((List.range REG_CAL_STATUS_COUNT).map
                    fun i => fromBE ((resp2.drop (3 + 2 * i)).take 2)),
              .sleep 1],
             2))
    ∧ (∀ (reads : Nat → ReadRes) (fuel : Nat) (st : PollSt) (k : Nat),
        (after_first_cl (poller_run reads fuel st k)).all
          (fun e => e == PollEv.sleep 1) = true) := by
  refine ⟨?_, ?_, ?_⟩
  · intro st resp s c h
    by_cases h5 : 5 ≤ st.fail_count + 1
    · rw [read_registers_fail_cl st resp s c h h5, if_pos h5, if_pos h5]
    · rw [read_registers_fail_low st resp s c h (by omega), if_neg h5, if_neg h5]
  · intro st resp1 resp2 h1 h2
    simp only [poller_cycle, read_registers_ok st resp1 _ _ h1,
      read_registers_ok st resp2 _ _ h2]
    simp
  · intro reads fuel
    induction fuel with
    | zero => intro st k; rfl
    | succ n ih =>
        intro st k
        rw [poller_run_succ]
        by_cases hr : st.running
        · rw [if_pos hr]
          rcases poller_cycle_cl_cases st (reads k) (reads (k + 1)) with
            hno | ⟨hafter, hstop⟩
          · rw [after_first_cl_append _ _ hno]
            exact ih _ _
          · rw [poller_run_not_running _ _ _ _ hstop, List.append_nil, hafter]
            rfl
        · rw [if_neg hr]
          rfl

/-- Witness instantiating `poller_failure_policy` on a short (empty) read
from the fresh state. -/
theorem poller_failure_policy_witness :
    read_registers ⟨true, 0⟩ (ReadRes.bytes []) REG_SENSOR_TYPE_BASE
        REG_SENSOR_POLL_COUNT
      = (none, ⟨true, 1⟩,
         [PollEv.readAttempt REG_SENSOR_TYPE_BASE REG_SENSOR_POLL_COUNT,
          PollEv.sleep 1]) := by
  have h := poller_failure_policy.1 ⟨true, 0⟩ [] REG_SENSOR_TYPE_BASE
    REG_SENSOR_POLL_COUNT (Or.inl (by decide))
  simpa using h

/-! ## Firmware transfer: FirmwareUpdateWorker.run (src/main.py 227-340)
and send_firmware (src/firmware_update.py 81-159) -/

/-- Serial link configuration (baudrate, bytesize, parity, stopbits);
parity carries the byte value of pyserial's parity character
('N' = 78). -/
structure SerialCfg where
  baudrate : Nat
  bytesize : Nat
  parity : Nat
  stopbits : Nat
deriving DecidableEq, Repr

def DEFAULT_BAUDRATE : Nat := 56000
def DEFAULT_BYTESIZE : Nat := 8
def DEFAULT_PARITY : Nat := 78
def DEFAULT_STOPBITS : Nat := 1

/-- The fixed update-link configuration the worker switches the port to
after the 0x2B start command. -/
def defaultCfg : SerialCfg :=
  ⟨DEFAULT_BAUDRATE, DEFAULT_BYTESIZE, DEFAULT_PARITY, DEFAULT_STOPBITS⟩

def MAX_PACKET_SIZE : Nat := 91
def HEADER_SIZE : Nat := 5
def CRC_SIZE : Nat := 2
def MAX_PAYLOAD_SIZE : Nat := MAX_PACKET_SIZE - HEADER_SIZE - CRC_SIZE
def MAX_RETRIES : Nat := 3

/-- Python `math.ceil(a / b)`. -/
def ceilDiv (a b : Nat) : Nat := (a + b - 1) / b

/-- One 0x2A chunk frame, as (1-based index, total chunk count,
payload bytes). -/
structure ChunkFrame where
  idx : Nat
  total : Nat
  payload : List Nat
deriving DecidableEq, Repr

/-- First attempt (0-based, below MAX_RETRIES) of
`FirmwareUpdateWorker._send_packet` whose 8-byte read returns at least 4
bytes and is therefore accepted as an acknowledgement; `respLen t` is the
oracle for the byte count attempt `t` read back (an exception counts
as 0). -/
def first_ack_attempt (respLen : Nat → Nat) : Option Nat :=
  (List.range MAX_RETRIES).find? fun t => 4 ≤ respLen t

/-- Terminal outcomes of `FirmwareUpdateWorker.run`. -/
inductive FwOutcome
  | fileError
  | startFailed
  | cancelled (i : Nat)
  | sendFailed (i : Nat)
  | success
deriving DecidableEq, Repr

def FwOutcome.isCancelled : FwOutcome → Bool
  | .cancelled _ => true
  | _ => false

def FwOutcome.isSendFailed : FwOutcome → Bool
  | .sendFailed _ => true
  | _ => false

/-- Observable result of one `FirmwareUpdateWorker.run` invocation:
terminal outcome, the Boolean emitted through `finished`, the port
configuration at the moment `finished` is emitted, the emitted progress
events (percent, message), every 0x2A frame written (retries included),
and the per-chunk acknowledged frames in order. -/
structure FwResult where
  outcome : FwOutcome
  finishedVal : Bool
  finalCfg : SerialCfg
  progress : List (Nat × String)
  writes : List ChunkFrame
  acked : List ChunkFrame
deriving DecidableEq, Repr

/-- The `for i in range(total_packets)` loop of
`FirmwareUpdateWorker.run`, from chunk index `i` with `rem` chunks
remaining (`i + rem = total` at the top-level call).  `running i` is the
`_running` flag at chunk boundary `i`; the loop is entered with the port
at `defaultCfg`.  The progress message is always empty because the code
sets `first_ack = True` before computing the message.  Note the
cancellation branch emits `finished(False)` without restoring
`origCfg`. -/
def fw_loop (fw : List Nat) (total : Nat) (running : Nat → Bool)
    (respLen : Nat → Nat → Nat) (origCfg : SerialCfg) : Nat → Nat → FwResult
  | _, 0 => ⟨.success, true, origCfg, [], [], []⟩
  | i, rem + 1 =>
      if running i = false then ⟨.cancelled i, false, defaultCfg, [], [], []⟩
      else
        let chunk := (fw.drop (i * MAX_PAYLOAD_SIZE)).take MAX_PAYLOAD_SIZE
        let f : ChunkFrame := ⟨i + 1, total, chunk⟩
        match first_ack_attempt (respLen i) with
        | none =>
            ⟨.sendFailed i, false, origCfg, [], List.replicate MAX_RETRIES f, []⟩
        | some t =>
            let rest := fw_loop fw total running respLen origCfg (i + 1) rem
            ⟨rest.outcome, rest.finishedVal, rest.finalCfg,
              ((i + 1) * 100 / total, "") :: rest.progress,
              List.replicate (t + 1) f ++ rest.writes,
              f :: rest.acked⟩

/-- Translation of `FirmwareUpdateWorker.run`: read the file (`none` models an open/read
failure), send the 0x2B start frame (`startOk` says whether its 8-byte
read returned at least 4 bytes), sleep 7 s, switch the port to
`defaultCfg` capturing `origCfg`, run the chunk loop, and restore
`origCfg` on the success and retry-exhaustion paths. -/
def fw_run (file : Option (List Nat)) (startOk : Bool) (running : Nat → Bool)
    (respLen : Nat → Nat → Nat) (origCfg : SerialCfg) : FwResult :=
  match file with
  | none => ⟨.fileError, false, origCfg, [], [], []⟩
  | some fw =>
      if startOk = false then ⟨.startFailed, false, origCfg, [], [], []⟩
      else
        let total := ceilDiv fw.length MAX_PAYLOAD_SIZE
        fw_loop fw total running respLen origCfg 0 total

theorem fw_run_some (fw : List Nat) (startOk : Bool) (running : Nat → Bool)
    (respLen : Nat → Nat → Nat) (origCfg : SerialCfg) :
    fw_run (some fw) startOk running respLen origCfg
      = if startOk = false then ⟨.startFailed, false, origCfg, [], [], []⟩
        else
          fw_loop fw (ceilDiv fw.length MAX_PAYLOAD_SIZE) running respLen origCfg 0
            (ceilDiv fw.length MAX_PAYLOAD_SIZE) := rfl

theorem fw_loop_zero (fw : List Nat) (total : Nat) (running : Nat → Bool)
    (respLen : Nat → Nat → Nat) (origCfg : SerialCfg) (i : Nat) :
    fw_loop fw total running respLen origCfg i 0
      = ⟨.success, true, origCfg, [], [], []⟩ := rfl

theorem fw_loop_succ (fw : List Nat) (total : Nat) (running : Nat → Bool)
    (respLen : Nat → Nat → Nat) (origCfg : SerialCfg) (i rem : Nat) :
    fw_loop fw total running respLen origCfg i (rem + 1)
      = if running i = false then ⟨.cancelled i, false, defaultCfg, [], [], []⟩
        else
          match first_ack_attempt (respLen i) with
          | none =>
              ⟨.sendFailed i, false, origCfg, [],
                List.replicate MAX_RETRIES
                  ⟨i + 1, total, (fw.drop (i * MAX_PAYLOAD_SIZE)).take MAX_PAYLOAD_SIZE⟩,
                []⟩
          | some t =>
              let rest := fw_loop fw total running respLen origCfg (i + 1) rem
              ⟨rest.outcome, rest.finishedVal, rest.finalCfg,
                ((i + 1) * 100 / total, "") :: rest.progress,
                List.replicate (t + 1)
                    ⟨i + 1, total, (fw.drop (i * MAX_PAYLOAD_SIZE)).take MAX_PAYLOAD_SIZE⟩
                  ++ rest.writes,
                ChunkFrame.mk (i + 1) total
                    ((fw.drop (i * MAX_PAYLOAD_SIZE)).take MAX_PAYLOAD_SIZE)
                  :: rest.acked⟩ := rfl

/-- Restoration behaviour of the loop, per terminal outcome. -/
theorem fw_loop_cfg (fw : List Nat) (total : Nat) (running : Nat → Bool)
    (respLen : Nat → Nat → Nat) (origCfg : SerialCfg) :
    ∀ rem i,
      (((fw_loop fw total running respLen origCfg i rem).outcome = .success
          ∨ (fw_loop fw total running respLen origCfg i rem).outcome.isSendFailed = true) →
        (fw_loop fw total running respLen origCfg i rem).finalCfg = origCfg)
      ∧ ((fw_loop fw total running respLen origCfg i rem).outcome.isCancelled = true →
          (fw_loop fw total running respLen origCfg i rem).finalCfg = defaultCfg
          ∧ (fw_loop fw total running respLen origCfg i rem).finishedVal = false) := by
  intro rem
  induction rem with
  | zero =>
      intro i
      rw [fw_loop_zero]
      exact ⟨fun _ => rfl, fun h => by simp [FwOutcome.isCancelled] at h⟩
  | succ n ih =>
      intro i
      rw [fw_loop_succ]
      by_cases hr : running i = false
      · rw [if_pos hr]
        refine ⟨fun h => ?_, fun _ => ⟨rfl, rfl⟩⟩
        rcases h with h | h
        · exact absurd h (by simp)
        · simp [FwOutcome.isSendFailed] at h
      · rw [if_neg hr]
        cases hfa : first_ack_attempt (respLen i) with
        | none =>
            refine ⟨fun _ => rfl, fun h => ?_⟩
            simp [FwOutcome.isCancelled] at h
        | some t =>
            exact ⟨fun h => (ih (i + 1)).1 h, fun h => (ih (i + 1)).2 h⟩

/-- C1 counterexample: a run that reaches the link switch (file read and
start command both succeed) and is then cancelled at the first chunk
boundary emits `finished` with the port still at the update
configuration, not the pre-transfer configuration (9600, 8, 'N', 1). -/
theorem fw_cancel_skips_restore :
    (fw_run (some [0]) true (fun _ => false) (fun _ _ => 8)
        ⟨9600, 8, 78, 1⟩).outcome = FwOutcome.cancelled 0
    ∧ (fw_run (some [0]) true (fun _ => false) (fun _ _ => 8)
        ⟨9600, 8, 78, 1⟩).finalCfg ≠ ⟨9600, 8, 78, 1⟩ := by
  decide

/-- C1 amended: after the link-configuration switch, the pre-transfer
serial configuration is restored before `finished` is emitted in the
success and retry-exhaustion outcomes; but in the cancellation outcome
(stop flag seen at a chunk boundary) the worker emits `finished(False)`
with the port left at the update configuration. -/
theorem fw_restoration :
    ∀ (file : Option (List Nat)) (startOk : Bool) (running : Nat → Bool)
      (respLen : Nat → Nat → Nat) (origCfg : SerialCfg),
      (((fw_run file startOk running respLen origCfg).outcome = .success
          ∨ (fw_run file startOk running respLen origCfg).outcome.isSendFailed = true) →
        (fw_run file startOk running respLen origCfg).finalCfg = origCfg)
      ∧ ((fw_run file startOk running respLen origCfg).outcome.isCancelled = true →
          (fw_run file startOk running respLen origCfg).finalCfg = defaultCfg
          ∧ (fw_run file startOk running respLen origCfg).finishedVal = false) := by
  intro file startOk running respLen origCfg
  match file with
  | none =>
      exact ⟨fun _ => rfl, fun h => by simp [fw_run, FwOutcome.isCancelled] at h⟩
  | some fw =>
      rw [fw_run_some]
      by_cases hs : startOk = false
      · rw [if_pos hs]
        exact ⟨fun _ => rfl, fun h => by simp [FwOutcome.isCancelled] at h⟩
      · rw [if_neg hs]
        exact fw_loop_cfg fw _ running respLen origCfg _ 0

/-- Witness instantiating `fw_restoration` on a successful one-chunk
transfer from configuration (9600, 8, 'N', 1). -/
theorem fw_restoration_witness :
    (fw_run (some [0]) true (fun _ => true) (fun _ _ => 8)
        ⟨9600, 8, 78, 1⟩).finalCfg = ⟨9600, 8, 78, 1⟩ :=
  (fw_restoration (some [0]) true (fun _ => true) (fun _ _ => 8)
      ⟨9600, 8, 78, 1⟩).1 (Or.inl (by decide))

/-- Trace characterization of a successful chunk loop. -/
theorem fw_loop_success_trace (fw : List Nat) (total : Nat) (running : Nat → Bool)
    (respLen : Nat → Nat → Nat) (origCfg : SerialCfg) :
    ∀ rem i,
      (fw_loop fw total running respLen origCfg i rem).outcome = .success →
      (fw_loop fw total running respLen origCfg i rem).acked
          = (List.range rem).map (fun j =>
              ⟨i + j + 1, total,
                (fw.drop ((i + j) * MAX_PAYLOAD_SIZE)).take MAX_PAYLOAD_SIZE⟩)
      ∧ (fw_loop fw total running respLen origCfg i rem).progress
          = (List.range rem).map (fun j => ((i + j + 1) * 100 / total, ""))
      ∧ ∀ f ∈ (fw_loop fw total running respLen origCfg i rem).writes,
          f.total = total := by
  intro rem
  induction rem with
  | zero =>
      intro i _
      refine ⟨rfl, rfl, ?_⟩
      intro f hf
      simp [fw_loop_zero] at hf
  | succ n ih =>
      intro i hsucc
      rw [fw_loop_succ] at hsucc ⊢
      by_cases hr : running i = false
      · rw [if_pos hr] at hsucc
        exact absurd hsucc (by simp)
      · rw [if_neg hr] at hsucc ⊢
        cases hfa : first_ack_attempt (respLen i) with
        | none =>
            rw [hfa] at hsucc
            exact absurd hsucc (by simp)
        | some t =>
            rw [hfa] at hsucc
            simp only at hsucc ⊢
            obtain ⟨ha, hp, hw⟩ := ih (i + 1) hsucc
            have hshift : ∀ j : Nat, i + 1 + j = i + (j + 1) := by omega
            refine ⟨?_, ?_, ?_⟩
            · rw [List.range_succ_eq_map, List.map_cons, List.map_map, ha]
              refine congrArg₂ _ (by simp) ?_
              apply List.map_congr_left
              intro j _
              simp only [Function.comp_apply, hshift]
            · rw [List.range_succ_eq_map, List.map_cons, List.map_map, hp]
              refine congrArg₂ _ (by simp) ?_
              apply List.map_congr_left
              intro j _
              simp only [Function.comp_apply, hshift]
            · intro f hf
              rcases List.mem_append.mp hf with hf | hf
              · rcases List.eq_of_mem_replicate hf with rfl
                rfl
              · exact hw f hf

/-- C5: a successful transfer of a nonempty image acknowledges exactly
`N = ceil(L / 84)` chunks in strictly ascending index order 1..N, every
written 0x2A frame (retries included) carries `totalChunks = N`, chunk i
carries image bytes `[(i-1)*84, i*84)`, the progress report after chunk i
is `floor(i*100/N)`, every progress report before the last is below 100,
and the last report is exactly 100. -/
theorem fw_chunking (fw : List Nat) (running : Nat → Bool)
    (respLen : Nat → Nat → Nat) (origCfg : SerialCfg) (hL : 0 < fw.length)
    (hsucc : (fw_run (some fw) true running respLen origCfg).outcome = .success) :
    (fw_run (some fw) true running respLen origCfg).acked
        = (List.range (ceilDiv fw.length MAX_PAYLOAD_SIZE)).map (fun j =>
            ⟨j + 1, ceilDiv fw.length MAX_PAYLOAD_SIZE,
              (fw.drop (j * MAX_PAYLOAD_SIZE)).take MAX_PAYLOAD_SIZE⟩)
    ∧ (∀ f ∈ (fw_run (some fw) true running respLen origCfg).writes,
        f.total = ceilDiv fw.length MAX_PAYLOAD_SIZE)
    ∧ (fw_run (some fw) true running respLen origCfg).progress
        = (List.range (ceilDiv fw.length MAX_PAYLOAD_SIZE)).map (fun j =>
            ((j + 1) * 100 / ceilDiv fw.length MAX_PAYLOAD_SIZE, ""))
    ∧ (∀ k, k + 1 < ceilDiv fw.length MAX_PAYLOAD_SIZE →
        (fw_run (some fw) true running respLen origCfg).progress.get? k
          = some ((k + 1) * 100 / ceilDiv fw.length MAX_PAYLOAD_SIZE, "")
        ∧ (k + 1) * 100 / ceilDiv fw.length MAX_PAYLOAD_SIZE < 100)
    ∧ (fw_run (some fw) true running respLen origCfg).progress.get?
        (ceilDiv fw.length MAX_PAYLOAD_SIZE - 1) = some (100, "") := by
  have hN : 0 < ceilDiv fw.length MAX_PAYLOAD_SIZE := by
    simp only [ceilDiv, MAX_PAYLOAD_SIZE, MAX_PACKET_SIZE, HEADER_SIZE, CRC_SIZE]
    omega
  have hrun : fw_run (some fw) true running respLen origCfg
      = fw_loop fw (ceilDiv fw.length MAX_PAYLOAD_SIZE) running respLen origCfg 0
          (ceilDiv fw.length MAX_PAYLOAD_SIZE) := by
    rw [fw_run_some, if_neg (by decide)]
  rw [hrun] at hsucc ⊢
  obtain ⟨ha, hp, hw⟩ := fw_loop_success_trace fw _ running respLen origCfg _ 0 hsucc
  simp only [Nat.zero_add] at ha hp
  refine ⟨ha, hw, hp, ?_, ?_⟩
  · intro k hk
    rw [hp]
    constructor
    · rw [List.get?_map, List.get?_range (by omega)]
      rfl
    · rw [Nat.div_lt_iff_lt_mul hN]
      omega
  · have hN1 : ceilDiv fw.length MAX_PAYLOAD_SIZE - 1 + 1
        = ceilDiv fw.length MAX_PAYLOAD_SIZE := by omega
    have h100 : ceilDiv fw.length MAX_PAYLOAD_SIZE * 100
        / ceilDiv fw.length MAX_PAYLOAD_SIZE = 100 :=
      Nat.mul_div_cancel_left 100 hN
    rw [hp, List.get?_map, List.get?_range (by omega), Option.map_some']
    rw [hN1, h100]

/-- Witness instantiating `fw_chunking` on a 100-byte image (two chunks)
with every acknowledgement succeeding on the first attempt. -/
theorem fw_chunking_witness :
    (fw_run (some (List.replicate 100 7)) true (fun _ => true) (fun _ _ => 8)
        ⟨9600, 8, 78, 1⟩).progress.get?
      (ceilDiv (List.replicate 100 7 : List Nat).length MAX_PAYLOAD_SIZE - 1)
      = some (100, "") :=
  (fw_chunking (List.replicate 100 7) (fun _ => true) (fun _ _ => 8)
      ⟨9600, 8, 78, 1⟩ (by decide) (by decide)).2.2.2.2

/-- Observable result of one `send_firmware` call
(src/firmware_update.py): the returned Boolean, the progress callbacks
issued, and every 0x2A chunk frame sent. -/
structure SfResult where
  retVal : Bool
  progress : List (Nat × String)
  chunkWrites : List ChunkFrame
deriving DecidableEq, Repr

/-- The `for i in range(total_packets)` loop of `send_firmware`: each
chunk is attempted up to MAX_RETRIES times, `ackOk i t` saying whether
`client.execute` returned a truthy response for chunk `i` on attempt `t`;
exhausting the retries aborts with `False`.  As in the worker, the
progress message is always empty because `first_ack` is set before the
message is computed. -/
def sf_loop (fw : List Nat) (total : Nat) (ackOk : Nat → Nat → Bool) :
    Nat → Nat → Bool × List (Nat × String) × List ChunkFrame
  | _, 0 => (true, [], [])
  | i, rem + 1 =>
      let f : ChunkFrame :=
        ⟨i + 1, total, (fw.drop (i * MAX_PAYLOAD_SIZE)).take MAX_PAYLOAD_SIZE⟩
      match (List.range MAX_RETRIES).find? (fun t => ackOk i t) with
      | none => (false, [], List.replicate MAX_RETRIES f)
      | some t =>
          let rest := sf_loop fw total ackOk (i + 1) rem
          (rest.1, ((i + 1) * 100 / total, "") :: rest.2.1,
            List.replicate (t + 1) f ++ rest.2.2)

/-- Translation of `send_firmware` (src/firmware_update.py 81-159): read the file,
connect, optionally send the 0x2B start command (reporting
`(0, "подготовка к обновлению")` first; `(0, "")` when skipped), run the
chunk loop, and on success close and report `(100, "")` before returning
`True`. -/
def send_firmware (file : Option (List Nat)) (connectOk : Bool)
    (skip_start : Bool) (startOk : Bool) (ackOk : Nat → Nat → Bool) : SfResult :=
  match file with
  | none => ⟨false, [], []⟩
  | some fw =>
      if connectOk = false then ⟨false, [], []⟩
      else
        let total := ceilDiv fw.length MAX_PAYLOAD_SIZE
        let pre : List (Nat × String) :=
          if skip_start then [(0, "")] else [(0, "подготовка к обновлению")]
        if skip_start = false ∧ startOk = false then ⟨false, pre, []⟩
        else
          let l := sf_loop fw total ackOk 0 total
          if l.1 then ⟨true, pre ++ l.2.1 ++ [(100, "")], l.2.2⟩
          else ⟨false, pre ++ l.2.1, l.2.2⟩

/-- C10: a zero-length firmware image sends no 0x2A chunk frame and still
ends in the success outcome: `send_firmware` returns True after a final
progress report of 100, and `FirmwareUpdateWorker.run` emits
`finished(True)` with the serial configuration restored to the
pre-transfer one, having emitted no chunk frames. -/
theorem zero_length_transfer :
    (∀ ackOk : Nat → Nat → Bool,
        send_firmware (some []) true false true ackOk
          = ⟨true, [(0, "подготовка к обновлению"), (100, "")], []⟩)
    ∧ (∀ (running : Nat → Bool) (respLen : Nat → Nat → Nat) (origCfg : SerialCfg),
        fw_run (some []) true running respLen origCfg
          = ⟨.success, true, origCfg, [], [], []⟩) :=
  ⟨fun _ => rfl, fun _ _ _ => rfl⟩

end UiApp
